import Mathlib

/-!
Shallow embedding of `src/Main.py` (a concurrent news scraper) and proofs of
the spec's claims about it.

Modelling choices:
* HTML documents are abstracted as `Html`: a flag recording whether parsing
  them raises an exception, plus the list of `h3.c-title` containers, each
  optionally holding its `a.c-title__link` anchor (`Anchor`: the anchor's raw
  text and its optional `href` attribute).
* The network is an oracle `Nat → Option Html` per URL: the outcome of each
  successive GET attempt (`none` = `requests` raised, `some doc` = response
  body parsed as `doc`).
* An article entry is a `(title, link)` pair of strings, as in the source.
* The thread pool's nondeterministic completion order is modelled as an
  arbitrary permutation of the worklist handed to the aggregation loop.
-/

namespace NewsScraper

/-- The `a.c-title__link` tag found inside an `h3.c-title` container:
its text content and its optional `href` attribute. -/
structure Anchor where
  text : String
  href : Option String
deriving DecidableEq, Repr

/-- Abstraction of an HTML document as seen by `parse_news`: whether
`BeautifulSoup` raises on it, and the `h3.c-title` containers in document
order, each with its optional nested anchor. -/
structure Html where
  raises : Bool
  items : List (Option Anchor)
deriving DecidableEq, Repr

/-- `NEWS_URL_CONSTANT` from `src/Main.py` line 13. -/
def NEWS_URL_CONSTANT : String := "https://www.artnews.com/c/art-news/market/"

/-- `NEWS_URL_1` from `src/Main.py` line 14. -/
def NEWS_URL_1 : String := "https://www.artnews.com/art-news/market/"

/-- `START_PAGE` from `src/Main.py` line 15. -/
def START_PAGE : Nat := 2

/-- `END_PAGE` from `src/Main.py` line 16. -/
def END_PAGE : Nat := 100

/-- The retry loop of `fetch_html` (`src/Main.py` lines 29-40): given the
per-attempt oracle, the number of remaining attempts and the index of the
next attempt, return the fetched body (or `none`) together with the number
of attempts actually performed. -/
def fetchLoop (oracle : Nat → Option Html) : Nat → Nat → Option Html × Nat
  | 0, _ => (none, 0)
  | n + 1, idx =>
    match oracle idx with
    | some h => (some h, 1)
    | none =>
      let r := fetchLoop oracle n (idx + 1)
      (r.1, r.2 + 1)

/-- `fetch_html` (`src/Main.py` lines 18-40): try the GET up to
`max_retries` times, returning the first successful body, else `None`.
(The inter-attempt `time.sleep` has no observable effect here.) -/
def fetch_html (oracle : Nat → Option Html) (max_retries : Nat) : Option Html :=
  (fetchLoop oracle max_retries 0).1

/-- The number of GET attempts `fetch_html` performs. -/
def fetch_attempts (oracle : Nat → Option Html) (max_retries : Nat) : Nat :=
  (fetchLoop oracle max_retries 0).2

/-- Python's `str.lower()`: lower-case every character. -/
def lower (s : String) : String :=
  ⟨s.data.map Char.toLower⟩

/-- The `strip=True` of `get_text(strip=True)`: drop leading and trailing
whitespace. -/
def strip (s : String) : String :=
  ⟨((s.data.dropWhile Char.isWhitespace).reverse.dropWhile Char.isWhitespace).reverse⟩

/-- `parse_news` (`src/Main.py` lines 42-64): on a parse exception return
`[]`; otherwise, for each `h3.c-title` container whose anchor exists and
carries an `href`, emit `(get_text(strip=True), href)`. -/
def parse_news (html : Html) : List (String × String) :=
  if html.raises then []
  else
    html.items.filterMap fun item =>
      item.bind fun a => a.href.map fun link => (strip a.text, link)

/-- `filter_news_by_keyword` (`src/Main.py` lines 66-80): `None` or empty
keyword returns the list unchanged; otherwise keep the entries whose
lower-cased title contains the lower-cased keyword as a substring. -/
def filter_news_by_keyword (news_list : List (String × String))
    (keyword : Option String) : List (String × String) :=
  match keyword with
  | none => news_list
  | some k =>
    if k = "" then news_list
    else
      let keyword_lower := lower k
      news_list.filter fun news => decide (keyword_lower.data <:+: (lower news.1).data)

/-- The URL computed by `fetch_and_parse_page` (`src/Main.py` line 108):
the base URL for page 1, else `base_url ++ "page/{page}/"`. -/
def page_url (page : Nat) (base_url : String) : String :=
  if page = 1 then base_url else base_url ++ "page/" ++ toString page ++ "/"

/-- `fetch_and_parse_page` (`src/Main.py` lines 107-112): fetch the page's
URL (with `fetch_html`'s default of 3 attempts); on success parse it, on
failure return `[]`. The network is an oracle from URL to per-attempt
outcomes. The source's `if html:` is truthy exactly for a non-`None`,
non-empty body; since `Html` abstracts a parsed non-empty body, the test is
the `Option` match. -/
def fetch_and_parse_page (net : String → Nat → Option Html)
    (page : Nat) (base_url : String) : List (String × String) :=
  match fetch_html (net (page_url page base_url)) 3 with
  | some html => parse_news html
  | none => []

/-- The inclusive page range `range(START_PAGE, END_PAGE + 1)` generalised
over its bounds. -/
def pageRange (startPage endPage : Nat) : List Nat :=
  List.range' startPage (endPage + 1 - startPage)

/-- `urls_to_fetch` (`src/Main.py` lines 120-124): pages of the first base
URL then pages of the second. -/
def urls_to_fetch : List (Nat × String) :=
  (pageRange START_PAGE END_PAGE).map (fun page => (page, NEWS_URL_CONSTANT)) ++
    (pageRange START_PAGE END_PAGE).map (fun page => (page, NEWS_URL_1))

/-- The aggregation loop of `main` (`src/Main.py` lines 134-142): futures
complete in some order `order`; each completed page task's entries are
appended (`all_news.extend`) to the accumulator. -/
def run_orchestrator (net : String → Nat → Option Html)
    (order : List (Nat × String)) : List (String × String) :=
  (order.map fun t => fetch_and_parse_page net t.1 t.2).flatten

/-- A concrete document used by witnesses: one container whose anchor has
whitespace-only text and an `href`. -/
def docBlankTitle : Html :=
  { raises := false, items := [some { text := "   ", href := some "https://a/x" }] }

/-- A concrete document used by witnesses: parsing raises. -/
def docRaises : Html :=
  { raises := true, items := [some { text := "T", href := some "https://a/y" }] }

/-- A concrete well-behaved document used by witnesses. -/
def docGood : Html :=
  { raises := false
    items := [some { text := " Art Market Soars ", href := some "https://a/1" },
              none,
              some { text := "No link here", href := none },
              some { text := "Banksy auction", href := some "https://a/2" }] }

end NewsScraper

namespace NewsScraper

/-- C3: `fetch_and_parse_page` requests the base URL unmodified for page 1,
and `base ++ "page/" ++ p ++ "/"` for any other page. -/
theorem page_url_spec (base_url : String) (page : Nat) :
    (page = 1 → page_url page base_url = base_url) ∧
      (page ≠ 1 →
        page_url page base_url = base_url ++ "page/" ++ toString page ++ "/") := by
  constructor
  · intro h
    simp [page_url, h]
  · intro h
    simp [page_url, h]

/-- Witness for C3: page 1 on base `"https://x/"` yields `"https://x/"`,
page 5 yields `"https://x/page/5/"`. -/
theorem page_url_spec_witness :
    page_url 1 "https://x/" = "https://x/" ∧
      page_url 5 "https://x/" = "https://x/page/5/" := by
  refine ⟨(page_url_spec "https://x/" 1).1 rfl, ?_⟩
  have h := (page_url_spec "https://x/" 5).2 (by decide)
  simpa using h

/-- C4: `fetch_and_parse_page` never propagates a failure outward: it always
returns a list, which is `[]` whenever the fetch fails, and `parse_news` of
the body whenever the fetch succeeds. -/
theorem fetch_and_parse_page_total (net : String → Nat → Option Html)
    (page : Nat) (base_url : String) :
    (fetch_html (net (page_url page base_url)) 3 = none →
        fetch_and_parse_page net page base_url = []) ∧
      (∀ h, fetch_html (net (page_url page base_url)) 3 = some h →
        fetch_and_parse_page net page base_url = parse_news h) := by
  constructor
  · intro hnone
    simp [fetch_and_parse_page, hnone]
  · intro h hsome
    simp [fetch_and_parse_page, hsome]

/-- Witness for C4: with a network that always fails, the page task returns
`[]`; with one that succeeds immediately, it returns the parsed entries. -/
theorem fetch_and_parse_page_total_witness :
    fetch_and_parse_page (fun _ _ => none) 2 "https://x/" = [] ∧
      fetch_and_parse_page (fun _ _ => some docGood) 2 "https://x/" =
        parse_news docGood := by
  constructor
  · exact (fetch_and_parse_page_total (fun _ _ => none) 2 "https://x/").1 rfl
  · exact (fetch_and_parse_page_total (fun _ _ => some docGood) 2 "https://x/").2
      docGood rfl

/-- C5: with an absent (`None`) or empty keyword, `filter_news_by_keyword`
returns the input list itself, unchanged. -/
theorem filter_news_by_keyword_no_keyword (news_list : List (String × String)) :
    filter_news_by_keyword news_list none = news_list ∧
      filter_news_by_keyword news_list (some "") = news_list := by
  exact ⟨rfl, rfl⟩

/-- C7: on any input whose parsing raises an exception, `parse_news` returns
the empty list rather than propagating the exception. -/
theorem parse_news_raises_empty (html : Html) (h : html.raises = true) :
    parse_news html = [] := by
  simp [parse_news, h]

/-- Witness for C7: a concrete raising document yields `[]`. -/
theorem parse_news_raises_empty_witness : parse_news docRaises = [] :=
  parse_news_raises_empty docRaises rfl

/-- C6: for a non-empty keyword, `filter_news_by_keyword` returns a sublist
of the input (hence preserves relative order), and an entry is in the result
exactly when it is in the input and the lower-cased keyword is a substring
of its lower-cased title. -/
theorem filter_news_by_keyword_keyword (k : String) (L : List (String × String))
    (hk : k ≠ "") :
    (filter_news_by_keyword L (some k)).Sublist L ∧
      ∀ e, e ∈ filter_news_by_keyword L (some k) ↔
        e ∈ L ∧ (lower k).data <:+: (lower e.1).data := by
  constructor
  · simp [filter_news_by_keyword, hk]
  · intro e
    simp [filter_news_by_keyword, hk, List.mem_filter]

/-- Witness for C6: keyword `"art"` on a two-entry list keeps exactly the
matching entry. -/
theorem filter_news_by_keyword_keyword_witness :
    ("Art Market", "l1") ∈
      filter_news_by_keyword [("Art Market", "l1"), ("Banksy", "l2")] (some "art") := by
  have h := (filter_news_by_keyword_keyword "art"
    [("Art Market", "l1"), ("Banksy", "l2")] (by decide)).2 ("Art Market", "l1")
  exact h.mpr ⟨by decide, by decide⟩

/-- C10: `filter_news_by_keyword` is idempotent for every keyword, including
`None` and the empty string. -/
theorem filter_news_by_keyword_idem (keyword : Option String)
    (L : List (String × String)) :
    filter_news_by_keyword (filter_news_by_keyword L keyword) keyword =
      filter_news_by_keyword L keyword := by
  match keyword with
  | none => rfl
  | some k =>
    by_cases hk : k = ""
    · simp [filter_news_by_keyword, hk]
    · simp [filter_news_by_keyword, hk, List.filter_filter]

/-- The retry loop never performs more attempts than it is allowed. -/
lemma fetchLoop_attempts_le (oracle : Nat → Option Html) :
    ∀ n idx, (fetchLoop oracle n idx).2 ≤ n := by
  intro n
  induction n with
  | zero => intro idx; simp [fetchLoop]
  | succ m ih =>
    intro idx
    cases h : oracle idx with
    | some val => simp [fetchLoop, h]
    | none =>
      simp only [fetchLoop, h]
      exact Nat.succ_le_succ (ih (idx + 1))

/-- If every allowed attempt fails, the retry loop returns `none` after
performing all of them. -/
lemma fetchLoop_all_fail (oracle : Nat → Option Html) :
    ∀ n idx, (∀ i, i < n → oracle (idx + i) = none) →
      fetchLoop oracle n idx = (none, n) := by
  intro n
  induction n with
  | zero => intro idx _; rfl
  | succ m ih =>
    intro idx h
    have h0 : oracle idx = none := by simpa using h 0 (Nat.succ_pos m)
    have hrest : ∀ i, i < m → oracle (idx + 1 + i) = none := by
      intro i hi
      have := h (i + 1) (Nat.succ_lt_succ hi)
      simpa [Nat.add_assoc, Nat.add_comm 1 i] using this
    simp [fetchLoop, h0, ih (idx + 1) hrest]

/-- C2: `fetch_html` performs at most `max_retries` GET attempts; when every
attempt fails it performs exactly `max_retries` attempts and returns `None`;
when the first attempt succeeds it performs exactly one attempt and returns
the body. -/
theorem fetch_html_retry_policy (oracle : Nat → Option Html) (max_retries : Nat) :
    fetch_attempts oracle max_retries ≤ max_retries ∧
      ((∀ i, i < max_retries → oracle i = none) →
        fetch_html oracle max_retries = none ∧
          fetch_attempts oracle max_retries = max_retries) ∧
      (∀ h, oracle 0 = some h → 0 < max_retries →
        fetch_html oracle max_retries = some h ∧
          fetch_attempts oracle max_retries = 1) := by
  refine ⟨fetchLoop_attempts_le oracle max_retries 0, ?_, ?_⟩
  · intro hfail
    have h := fetchLoop_all_fail oracle max_retries 0 (by simpa using hfail)
    exact ⟨by simp [fetch_html, h], by simp [fetch_attempts, h]⟩
  · intro h h0 hpos
    match max_retries, hpos with
    | m + 1, _ =>
      exact ⟨by simp [fetch_html, fetchLoop, h0], by simp [fetch_attempts, fetchLoop, h0]⟩

/-- Witness for C2: an always-failing oracle with the default of 3 attempts
returns `None` after exactly 3 attempts; a first-try success returns the
body after exactly 1 attempt. -/
theorem fetch_html_retry_policy_witness :
    (fetch_html (fun _ => none) 3 = none ∧ fetch_attempts (fun _ => none) 3 = 3) ∧
      (fetch_html (fun _ => some docGood) 3 = some docGood ∧
        fetch_attempts (fun _ => some docGood) 3 = 1) := by
  constructor
  · exact (fetch_html_retry_policy (fun _ => none) 3).2.1 (fun i _ => rfl)
  · exact (fetch_html_retry_policy (fun _ => some docGood) 3).2.2 docGood rfl
      (by decide)

/-- C8 counterexample: a container whose anchor has whitespace-only text and
an `href` produces an entry whose title is empty, so not every produced
entry has a non-empty title. -/
theorem parse_news_empty_title_counterexample :
    ¬ (∀ p ∈ parse_news docBlankTitle, p.1 ≠ "") := by
  intro h
  exact h ("", "https://a/x") (by decide) rfl

/-- C8 (amended): every entry produced by `parse_news` comes from a
container's anchor carrying an `href` attribute: its title is the stripped
anchor text — which may be empty — and its link the `href` value. -/
theorem parse_news_entry_from_anchor (html : Html) (p : String × String)
    (hp : p ∈ parse_news html) :
    ∃ a : Anchor, some a ∈ html.items ∧ strip a.text = p.1 ∧ a.href = some p.2 := by
  by_cases hr : html.raises
  · simp [parse_news, hr] at hp
  · have hp' : p ∈ html.items.filterMap fun item =>
        item.bind fun a => a.href.map fun link => (strip a.text, link) := by
      simpa [parse_news, hr] using hp
    obtain ⟨item, hitem, hf⟩ := List.mem_filterMap.mp hp'
    match item with
    | none => exact Option.noConfusion hf
    | some a =>
      have hmap : a.href.map (fun link => (strip a.text, link)) = some p := hf
      match ha : a.href with
      | none =>
        rw [ha] at hmap
        exact Option.noConfusion hmap
      | some link =>
        rw [ha] at hmap
        have hpair : (strip a.text, link) = p := Option.some.inj hmap
        refine ⟨a, hitem, ?_, ?_⟩
        · rw [show p.1 = strip a.text from (congrArg Prod.fst hpair).symm]
        · rw [ha, show p.2 = link from (congrArg Prod.snd hpair).symm]

/-- Witness for C8 (amended): the first entry of `docGood` indeed arises
from its first anchor. -/
theorem parse_news_entry_from_anchor_witness :
    ∃ a : Anchor, some a ∈ docGood.items ∧ strip a.text = "Art Market Soars" ∧
      a.href = some "https://a/1" :=
  parse_news_entry_from_anchor docGood ("Art Market Soars", "https://a/1") (by decide)

/-- C9: with the default configuration the worklist has 198 tasks, contains
no duplicates, and holds exactly the pairs of a page in `[2, 100]` with one
of the two base URLs. -/
theorem urls_to_fetch_spec :
    urls_to_fetch.length = 198 ∧ urls_to_fetch.Nodup ∧
      ∀ page u, (page, u) ∈ urls_to_fetch ↔
        2 ≤ page ∧ page ≤ 100 ∧ (u = NEWS_URL_CONSTANT ∨ u = NEWS_URL_1) := by
  refine ⟨?_, ?_, ?_⟩
  · simp [urls_to_fetch, pageRange, START_PAGE, END_PAGE]
  · have hinj0 : Function.Injective fun page : Nat => (page, NEWS_URL_CONSTANT) := by
      intro a b hab
      simpa using hab
    have hinj1 : Function.Injective fun page : Nat => (page, NEWS_URL_1) := by
      intro a b hab
      simpa using hab
    have hnd : (pageRange START_PAGE END_PAGE).Nodup := by
      simpa [pageRange] using List.nodup_range' START_PAGE (END_PAGE + 1 - START_PAGE)
    refine List.nodup_append.mpr ⟨hnd.map hinj0, hnd.map hinj1, ?_⟩
    intro x hx₀ hx₁
    obtain ⟨a, _, rfl⟩ := List.mem_map.mp hx₀
    obtain ⟨b, _, hb⟩ := List.mem_map.mp hx₁
    have hurl : NEWS_URL_1 = NEWS_URL_CONSTANT := congrArg Prod.snd hb
    exact absurd hurl (by decide)
  · intro page u
    simp only [urls_to_fetch, pageRange, START_PAGE, END_PAGE, List.mem_append,
      List.mem_map, List.mem_range'_1, Prod.mk.injEq]
    constructor
    · rintro (⟨a, ha, rfl, rfl⟩ | ⟨a, ha, rfl, rfl⟩)
      · exact ⟨ha.1, by omega, Or.inl rfl⟩
      · exact ⟨ha.1, by omega, Or.inr rfl⟩
    · rintro ⟨h1, h2, (rfl | rfl)⟩
      · exact Or.inl ⟨page, ⟨h1, by omega⟩, rfl, rfl⟩
      · exact Or.inr ⟨page, ⟨h1, by omega⟩, rfl, rfl⟩

/-- Witness for C9: the pair of page 2 with the first base URL is in the
worklist. -/
theorem urls_to_fetch_spec_witness : (2, NEWS_URL_CONSTANT) ∈ urls_to_fetch :=
  (urls_to_fetch_spec.2.2 2 NEWS_URL_CONSTANT).mpr ⟨by decide, by decide, Or.inl rfl⟩

/-- C1: for any worklist and any network behaviour (so each page task
returns a fixed list of entries), the aggregate built in any completion
order has length equal to the sum over the worklist of each task's entry
count — hence the same for every completion order — and equals
entries-per-page times the number of tasks in the uniform case. -/
theorem run_orchestrator_length (net : String → Nat → Option Html)
    (work order : List (Nat × String)) (hperm : order.Perm work) :
    (run_orchestrator net order).length =
        (work.map fun t => (fetch_and_parse_page net t.1 t.2).length).sum ∧
      ∀ k, (∀ t ∈ work, (fetch_and_parse_page net t.1 t.2).length = k) →
        (run_orchestrator net order).length = k * work.length := by
  have hlen : (run_orchestrator net order).length =
      (order.map fun t => (fetch_and_parse_page net t.1 t.2).length).sum := by
    simp [run_orchestrator, List.length_flatten, List.map_map, Function.comp_def]
  have hsum : (order.map fun t => (fetch_and_parse_page net t.1 t.2).length).sum =
      (work.map fun t => (fetch_and_parse_page net t.1 t.2).length).sum :=
    (hperm.map fun t => (fetch_and_parse_page net t.1 t.2).length).sum_eq
  refine ⟨hlen.trans hsum, ?_⟩
  intro k hk
  have hconst : ∀ x ∈ work.map fun t => (fetch_and_parse_page net t.1 t.2).length,
      x = k := by
    intro x hx
    obtain ⟨t, ht, rfl⟩ := List.mem_map.mp hx
    exact hk t ht
  have huniform :=
    List.sum_eq_card_nsmul (work.map fun t => (fetch_and_parse_page net t.1 t.2).length)
      k hconst
  rw [hlen.trans hsum, huniform, List.length_map, smul_eq_mul, Nat.mul_comm]

/-- Witness for C1: two tasks completing in reversed order, each yielding
the 2 entries of `docGood`, aggregate to 2 × 2 entries. -/
theorem run_orchestrator_length_witness :
    (run_orchestrator (fun _ _ => some docGood) [(3, "b"), (2, "b")]).length = 2 * 2 :=
  (run_orchestrator_length (fun _ _ => some docGood) [(2, "b"), (3, "b")]
    [(3, "b"), (2, "b")] (by decide)).2 2 (by decide)

end NewsScraper
